import Mathlib

/-!
Verification development for the kube-ipam address allocator.

The Go sources are shallowly embedded: `net.IP` byte slices become `List Nat`
(bytes), `*net.IPNet` becomes `IPNet`, fallible functions return `Except` or
pair their result with an `Option` error, and the in-memory cache plus the
backing resource store become explicit state records.  Functions named after
the Go sources (`Pool.Validate`, `Pool.Contains`, `lastIP`, `Reserve`, ...)
are translated from those sources; the few collaborators whose code is not in
the repository snapshot carry a `Modelled from the spec:` doc comment.
-/

namespace KubeIpam

/-- Go `net.IP`: a byte slice, each entry a byte value below 256. -/
abbrev IP := List Nat

/-- Go error values as the allocator observes them: plain formatted errors,
plus the two Kubernetes status classes the code branches on
(`errors.IsAlreadyExists`, `errors.IsNotFound`) and other store failures. -/
inductive GoErr where
  | strMsg (msg : String)
  | alreadyExists
  | notFound
  | other (msg : String)
  deriving DecidableEq

deriving instance DecidableEq for Except

/-- Whether an `Except` result is a success; Go's `err == nil`. -/
def exceptIsOk (x : Except GoErr Unit) : Bool :=
  match x with
  | Except.ok _ => true
  | Except.error _ => false

/-- The 12-byte header of an IPv4-mapped 16-byte address (Go `v4InV6Prefix`). -/
def v4MappedHeader : List Nat := [0, 0, 0, 0, 0, 0, 0, 0, 0, 0, 255, 255]

/-- Go `IP.To4`: the 4-byte form of an address, `none` if not IPv4. -/
def toFour (ip : IP) : Option IP :=
  if ip.length = 4 then some ip
  else if ip.length = 16 && (ip.take 10).all (fun b => b == 0)
        && ip.getD 10 0 == 255 && ip.getD 11 0 == 255 then
    some (ip.drop 12)
  else none

/-- Go `IP.To16`: the 16-byte form of an address, `none` if neither 4 nor 16 bytes. -/
def toSixteen (ip : IP) : Option IP :=
  if ip.length = 4 then some (v4MappedHeader ++ ip)
  else if ip.length = 16 then some ip
  else none

/-- Big-endian byte-string to natural number (Go `big.Int.SetBytes`). -/
def bytesToNat (bs : List Nat) : Nat :=
  bs.foldl (fun acc b => acc * 256 + b) 0

/-- Go `ip.ipToInt` from containernetworking/plugins: the address as an
arbitrary-precision integer, via the 4-byte form when IPv4, else the 16-byte
form, else zero (`SetBytes` of a nil slice). -/
def ipToNat (ip : IP) : Nat :=
  match toFour ip with
  | some v => bytesToNat v
  | none =>
    match toSixteen ip with
    | some v => bytesToNat v
    | none => 0

/-- Go `ip.Cmp` from containernetworking/plugins: compare two addresses as
integers. -/
def ipCmp (a b : IP) : Ordering := compare (ipToNat a) (ipToNat b)

/-- Minimal big-endian byte string of a natural number (Go `big.Int.Bytes`),
with structural fuel; 20 bytes of fuel cover every value reachable from a
16-byte address plus one. -/
def natToBytesAux : Nat → Nat → List Nat
  | 0, _ => []
  | fuel + 1, n => if n = 0 then [] else natToBytesAux fuel (n / 256) ++ [n % 256]

/-- Minimal big-endian byte string of a natural number (Go `big.Int.Bytes`). -/
def natToBytes (n : Nat) : List Nat := natToBytesAux 20 n

/-- Go `ip.NextIP` from containernetworking/plugins: the address incremented
by one, as the minimal byte string of the incremented integer. -/
def nextIP (ip : IP) : IP := natToBytes (ipToNat ip + 1)

/-- Go `*net.IPNet`: a network address together with its mask. -/
structure IPNet where
  ip : IP
  mask : IP
  deriving DecidableEq

/-- Source `lastIP`: OR every subnet address byte with the complement of the
corresponding mask byte, then decrement the final (index 3) byte when the
subnet address is IPv4, excluding the broadcast address. -/
def lastIP (subnet : IPNet) : IP :=
  let e := List.zipWith (fun a m => Nat.lor a (255 - m)) subnet.ip subnet.mask
  if (toFour subnet.ip).isSome then e.set 3 ((e.getD 3 0 + 255) % 256) else e

/-- Number of leading one bits of a byte of the shape `1^k 0^(8-k)` with
`k < 8`, `none` for any other byte (inner loop of Go `simpleMaskLength`). -/
def leadingOnesByte (b : Nat) : Option Nat :=
  if b = 0 then some 0
  else if b = 128 then some 1
  else if b = 192 then some 2
  else if b = 224 then some 3
  else if b = 240 then some 4
  else if b = 248 then some 5
  else if b = 252 then some 6
  else if b = 254 then some 7
  else none

/-- Go `simpleMaskLength`: leading-ones count of a canonical mask, `none` for
a non-canonical mask. -/
def simpleMaskLength : List Nat → Option Nat
  | [] => some 0
  | b :: rest =>
    if b = 255 then (simpleMaskLength rest).map (fun n => n + 8)
    else
      match leadingOnesByte b with
      | none => none
      | some k => if rest.all (fun x => x == 0) then some k else none

/-- Go `IPMask.Size`: `(ones, bits)` for a canonical mask, `(0, 0)` otherwise. -/
def maskSize (mask : IP) : Nat × Nat :=
  match simpleMaskLength mask with
  | none => (0, 0)
  | some n => (n, 8 * mask.length)

/-- Go `IP.Mask`: apply a mask to an address, `none` (Go nil) on a length
mismatch after the 4/16-byte normalizations. -/
def goIPMask (ip mask : IP) : Option IP :=
  let mask :=
    if mask.length = 16 && ip.length = 4 && (mask.take 12).all (fun b => b == 255) then
      mask.drop 12
    else mask
  let ip :=
    if mask.length = 4 && ip.length = 16 && ip.take 12 == v4MappedHeader then ip.drop 12
    else ip
  if ip.length = mask.length then some (List.zipWith Nat.land ip mask) else none

/-- Go `IP.Equal`: byte equality up to the 4-byte/16-byte IPv4 encodings. -/
def ipEqual (a b : IP) : Bool :=
  if a.length = b.length then a == b
  else if a.length = 4 && b.length = 16 then
    b.take 12 == v4MappedHeader && a == b.drop 12
  else if a.length = 16 && b.length = 4 then
    a.take 12 == v4MappedHeader && b == a.drop 12
  else false

/-- Go `networkNumberAndMask`: the network number and mask of an `IPNet`,
normalized to matching lengths, `none` on an inconsistent pair. -/
def networkNumberAndMask (n : IPNet) : Option (IP × IP) :=
  let ipo : Option IP :=
    match toFour n.ip with
    | some v => some v
    | none => if n.ip.length = 16 then some n.ip else none
  match ipo with
  | none => none
  | some nn =>
    if n.mask.length = 4 then
      if nn.length ≠ 4 then none else some (nn, n.mask)
    else if n.mask.length = 16 then
      if nn.length = 4 then some (nn, n.mask.drop 12) else some (nn, n.mask)
    else none

/-- Go `IPNet.Contains`: membership of an address in a subnet. -/
def ipnetContains (n : IPNet) (addr : IP) : Bool :=
  match networkNumberAndMask n with
  | none => false
  | some nnm =>
    let x := (toFour addr).getD addr
    x.length == nnm.1.length &&
      (List.zip (List.zip nnm.1 nnm.2) x).all
        (fun t => Nat.land t.1.1 t.1.2 == Nat.land t.2 t.1.2)

/-- Go `IP.String` for the forms the allocator produces: dotted decimal for
IPv4 addresses, `<nil>` for a nil slice; other (IPv6) text forms are not
exercised by this code and are collapsed to a placeholder. -/
def ipString (ip : IP) : String :=
  match toFour ip with
  | some v => String.intercalate "." (v.map (fun b => toString b))
  | none => if ip.length = 0 then "<nil>" else "?"

/-- Source `utils.ToKubeName`: replace every dot with a hyphen. -/
def toKubeName (s : String) : String := s.replace "." "-"

/-! ## Pool model (source `types` package) -/

/-- Source `types.Pool`; `Option` models the nil-ability of the Go pointer and
slice fields. -/
structure Pool where
  Name : String
  PoolStart : Option IP
  PoolEnd : Option IP
  Gateway : Option IP
  Subnet : Option IPNet
  VlanID : Option Int
  deriving DecidableEq

/-- Source `canonicalizeIP`: succeeds exactly when the address has a 4-byte
form. -/
def canonicalizeIP (ip : IP) : Except GoErr Unit :=
  if (toFour ip).isNone then Except.error (GoErr.strMsg "IP is not ipv4 standard form")
  else Except.ok ()

/-- The subnet/bound checks of source `Pool.Contains`, once the address is
known IPv4 and the subnet pointer is non-nil: not in the subnet — false;
before a set `PoolStart` — false; after a set `PoolEnd` — false; else true. -/
def containsWith (sn : IPNet) (ps pe : Option IP) (addr : IP) : Bool :=
  if !(ipnetContains sn addr) then false
  else if (match ps with
           | some s => decide (ipCmp addr s = Ordering.lt)
           | none => false) then false
  else if (match pe with
           | some e => decide (ipCmp addr e = Ordering.gt)
           | none => false) then false
  else true

/-- Source `Pool.Contains`. `none` models the Go panic of dereferencing a nil
subnet pointer (reached only when the address is IPv4 and `Subnet` is nil). -/
def Pool.Contains (p : Pool) (addr : IP) : Option Bool :=
  if (toFour addr).isNone then some false
  else
    match p.Subnet with
    | none => none
    | some sn => some (containsWith sn p.PoolStart p.PoolEnd addr)

/-- The `PoolStart` half of source `Pool.Validate`'s tail: canonicalize the
start address and require it to be contained in the pool. -/
def Pool.startCheck (p : Pool) : Except GoErr Unit :=
  match p.PoolStart with
  | none => Except.ok ()
  | some s =>
    match canonicalizeIP s with
    | Except.error e => Except.error e
    | Except.ok _ =>
      if !((p.Contains s).getD false) then
        Except.error (GoErr.strMsg "poolStart not in subnet")
      else Except.ok ()

/-- The `PoolEnd` half of source `Pool.Validate`'s tail. -/
def Pool.endCheck (p : Pool) : Except GoErr Unit :=
  match p.PoolEnd with
  | none => Except.ok ()
  | some e2 =>
    match canonicalizeIP e2 with
    | Except.error e => Except.error e
    | Except.ok _ =>
      if !((p.Contains e2).getD false) then
        Except.error (GoErr.strMsg "poolEnd not in subnet")
      else Except.ok ()

/-- Source `Pool.Validate`: the fixed sequence of checks — name, VLAN range,
gateway and subnet presence, subnet IPv4 form, subnet minimum size, matching
IP/mask lengths, network-address form, gateway in subnet, then the optional
`PoolStart`/`PoolEnd` containment checks. -/
def Pool.Validate (p : Pool) : Except GoErr Unit :=
  if p.Name.length == 0 then Except.error (GoErr.strMsg "pool name can not be empty")
  else if (match p.VlanID with
           | some v => v ≤ 0 || (v > 1005 && v < 1025) || v > 4094
           | none => false) then
    Except.error (GoErr.strMsg "pool vlanID is invalid")
  else
    match p.Gateway with
    | none => Except.error (GoErr.strMsg "pool gateway is invalid")
    | some gw =>
      match p.Subnet with
      | none => Except.error (GoErr.strMsg "pool subnet is invalid")
      | some sn =>
        match canonicalizeIP sn.ip with
        | Except.error e => Except.error e
        | Except.ok _ =>
          if ((maskSize sn.mask).1 : Int) > ((maskSize sn.mask).2 : Int) - 2 then
            Except.error (GoErr.strMsg "pool subnet too small to allocate from")
          else if sn.ip.length ≠ sn.mask.length then
            Except.error (GoErr.strMsg "pool subnet IP and Mask version mismatch")
          else if !(ipEqual sn.ip ((goIPMask sn.ip sn.mask).getD [])) then
            Except.error (GoErr.strMsg "pool subnet has host bits set")
          else if !(ipnetContains sn gw) then
            Except.error (GoErr.strMsg "gateway not in subnet")
          else
            match p.startCheck with
            | Except.error e => Except.error e
            | Except.ok _ => p.endCheck

/-- Source `Pool.Canonicalize`: validate, then default `PoolStart` to the
successor of the subnet address and `PoolEnd` to `lastIP` of the subnet.  The
result pairs the (possibly updated) pool with the returned error, mirroring
the in-place mutation of the Go receiver: on a validation error the pool is
returned unchanged. -/
def Pool.Canonicalize (p : Pool) : Pool × Option GoErr :=
  match p.Validate with
  | Except.error e => (p, some e)
  | Except.ok _ =>
    let p1 :=
      match p.PoolStart, p.Subnet with
      | none, some sn => { p with PoolStart := some (nextIP sn.ip) }
      | _, _ => p
    let p2 :=
      match p1.PoolEnd, p1.Subnet with
      | none, some sn => { p1 with PoolEnd := some (lastIP sn) }
      | _, _ => p1
    (p2, none)

/-- Modelled from the spec: `Pool.Overlaps` is not in the source snapshot.
Per the spec, two pools overlap when their effective address ranges — subnet
bounds, narrowed by `PoolStart`/`PoolEnd` when set — intersect. -/
def effectiveRange (p : Pool) : Option (Nat × Nat) :=
  match p.Subnet with
  | none => none
  | some sn =>
    let lo := match p.PoolStart with
              | some s => ipToNat s
              | none => ipToNat sn.ip
    let hi := match p.PoolEnd with
              | some e => ipToNat e
              | none => ipToNat (List.zipWith (fun a m => Nat.lor a (255 - m)) sn.ip sn.mask)
    some (lo, hi)

/-- Modelled from the spec: range intersection of two pools (see
`effectiveRange`). -/
def Pool.Overlaps (p other : Pool) : Bool :=
  match effectiveRange p, effectiveRange other with
  | some r1, some r2 => decide (r1.1 ≤ r2.2) && decide (r2.1 ≤ r1.2)
  | _, _ => false

/-! ## Network model (source `types` package) -/

/-- Source `types.Network`. -/
structure Network where
  Name : String
  Pools : List Pool
  deriving DecidableEq

/-- Source `types.LastReservedIP`; the address may be nil (`[]`) when the
stored string failed to parse. -/
structure LastReservedIP where
  ip : IP
  PoolName : String
  deriving DecidableEq

/-- Index of the first pool carrying the given name (the `break`-ing loop of
source `LastReservedIP.Index`). -/
def poolIndexOf (name : String) : List Pool → Option Nat
  | [] => none
  | p :: rest =>
    if p.Name == name then some 0
    else (poolIndexOf name rest).map (fun i => i + 1)

/-- Source `LastReservedIP.Index`: resolve `PoolName` to the index of the
first matching pool, failing when no pool matches or the matching pool does
not contain the marker's address.  The outer `Option` propagates the nil
subnet panic of `Pool.Contains`; the function reads but never writes its
arguments. -/
def LastReservedIP.Index (l : LastReservedIP) (n : Network) : Option (Except GoErr Nat) :=
  match poolIndexOf l.PoolName n.Pools with
  | none => some (Except.error (GoErr.strMsg "last reserved ip's pool is not in network"))
  | some idx =>
    match n.Pools.get? idx with
    | none => none
    | some pool =>
      match pool.Contains l.ip with
      | none => none
      | some b =>
        if !b then some (Except.error (GoErr.strMsg "last reserved ip is not in pool"))
        else some (Except.ok idx)

/-! ## Wire (CRD) record types, as delivered by the backing store -/

/-- The metadata the allocator reads from a store record: its unique name, the
deletion-in-progress marker, and the change-version token. -/
structure ObjectMeta where
  name : String
  deletionTimestamp : Option Nat
  resourceVersion : String
  deriving DecidableEq

/-- Source `v1.Pool`: the wire pool with string-encoded addresses. -/
structure CrdPool where
  name : String
  poolStart : String
  poolEnd : String
  gateway : String
  subnet : String
  vlanId : Option Int
  deriving DecidableEq

/-- Source `v1.Network`. -/
structure CrdNetwork where
  metadata : ObjectMeta
  pools : List CrdPool
  deriving DecidableEq

/-- Source `v1.UsingIPSpec`. -/
structure CrdUsingIPSpec where
  podName : String
  podNamespace : String
  network : String
  pool : String
  deriving DecidableEq

/-- Source `v1.UsingIP`. -/
structure CrdUsingIP where
  metadata : ObjectMeta
  spec : CrdUsingIPSpec
  deriving DecidableEq

/-- Source `v1.LastReservedIPSpec`. -/
structure CrdLastReservedIPSpec where
  ip : String
  poolName : String
  deriving DecidableEq

/-- Source `v1.LastReservedIP`. -/
structure CrdLastReservedIP where
  metadata : ObjectMeta
  spec : CrdLastReservedIPSpec
  deriving DecidableEq

/-! ## Translation from wire records to domain types -/

/-- Split a character list on a separator (text form of Go `strings.Split`). -/
def splitChar (sep : Char) : List Char → List (List Char)
  | [] => [[]]
  | ch :: rest =>
    let r := splitChar sep rest
    if ch == sep then [] :: r
    else (ch :: r.headD []) :: r.tail

/-- Decimal digit run to its value, `none` on empty or non-digit input. -/
def parseDecimalAux : List Char → Nat → Option Nat
  | [], acc => some acc
  | c :: rest, acc =>
    if c.isDigit then parseDecimalAux rest (acc * 10 + (c.toNat - 48)) else none

/-- Decimal digit run to its value, `none` on empty or non-digit input. -/
def parseDecimal (cs : List Char) : Option Nat :=
  match cs with
  | [] => none
  | _ => parseDecimalAux cs 0

/-- Dotted-decimal IPv4 text to its four byte values. -/
def parseIPv4Core (cs : List Char) : Option (List Nat) :=
  match (splitChar '.' cs).mapM parseDecimal with
  | some ns => if ns.length = 4 && ns.all (fun n => decide (n ≤ 255)) then some ns else none
  | none => none

/-- Dotted-decimal IPv4 text to its four byte values. -/
def parseIPv4Bytes (s : String) : Option (List Nat) :=
  parseIPv4Core s.toList

/-- Go `net.ParseIP` for the dotted-decimal forms this system stores: yields
the 16-byte representation Go produces for IPv4 text, `none` (Go nil) when
the text does not parse.  IPv6 text forms are not exercised here. -/
def parseIP (s : String) : Option IP :=
  (parseIPv4Bytes s).map (fun bs => v4MappedHeader ++ bs)

/-- A byte with `k` leading one bits (clamped to 8). -/
def byteOnes (k : Nat) : Nat := 256 - 2 ^ (8 - min 8 k)

/-- Go `net.CIDRMask(ones, 32)`. -/
def cidrMask (ones : Nat) : List Nat :=
  [byteOnes ones, byteOnes (ones - 8), byteOnes (ones - 16), byteOnes (ones - 24)]

/-- Go `net.ParseCIDR` for IPv4 text: the 4-byte network (address masked down
to the network address) and its mask, `none` on malformed text. -/
def parseCIDR (s : String) : Option IPNet :=
  match splitChar '/' s.toList with
  | [ipPart, maskPart] =>
    match parseIPv4Core ipPart, parseDecimal maskPart with
    | some bs, some ones =>
      if ones ≤ 32 then
        let mask := cidrMask ones
        some ⟨List.zipWith Nat.land bs mask, mask⟩
      else none
    | _, _ => none
  | _ => none

/-- Modelled from the spec: `GetPoolFromCRD` is not in the source snapshot.
Per the spec, translation decodes the wire pool's string-encoded addresses,
subnet and VLAN into the domain `Pool`, and can fail on malformed input; we
model failure on an unparsable subnet and Go-nil addresses for unparsable
address fields. -/
def GetPoolFromCRD (p : CrdPool) : Except GoErr Pool :=
  match parseCIDR p.subnet with
  | none => Except.error (GoErr.strMsg "invalid pool subnet")
  | some sn =>
    Except.ok
      { Name := p.name
        PoolStart := parseIP p.poolStart
        PoolEnd := parseIP p.poolEnd
        Gateway := parseIP p.gateway
        Subnet := some sn
        VlanID := p.vlanId }

/-- The pool-translating loop of source `GetNetworkFromCRD`: first failure
aborts the whole translation. -/
def getPoolsFromCRD : List CrdPool → Except GoErr (List Pool)
  | [] => Except.ok []
  | p :: rest =>
    match GetPoolFromCRD p with
    | Except.error e => Except.error e
    | Except.ok pl =>
      match getPoolsFromCRD rest with
      | Except.error e => Except.error e
      | Except.ok pls => Except.ok (pl :: pls)

/-- Source `GetNetworkFromCRD`. -/
def GetNetworkFromCRD (n : CrdNetwork) : Except GoErr Network :=
  match getPoolsFromCRD n.pools with
  | Except.error e => Except.error e
  | Except.ok pls => Except.ok ⟨n.metadata.name, pls⟩

/-- Source `GetLastReservedIPFromCRD`: `net.ParseIP` of the stored text (nil,
i.e. `[]`, when it does not parse) plus the pool name. -/
def GetLastReservedIPFromCRD (l : CrdLastReservedIP) : LastReservedIP :=
  ⟨(parseIP l.spec.ip).getD [], l.spec.poolName⟩

/-! ## String-keyed maps (Go `map[string]...`) -/

/-- Go map insertion, observed through `mapLookup`. -/
def mapInsert {α : Type} (m : List (String × α)) (k : String) (v : α) : List (String × α) :=
  (k, v) :: m.filter (fun kv => kv.1 != k)

/-- Go map deletion. -/
def mapErase {α : Type} (m : List (String × α)) (k : String) : List (String × α) :=
  m.filter (fun kv => kv.1 != k)

/-- Go map lookup. -/
def mapLookup {α : Type} (m : List (String × α)) (k : String) : Option α :=
  (m.find? (fun kv => kv.1 == k)).map (fun kv => kv.2)

/-! ## Local cache (source `store/kube` cache) -/

/-- The cache's three maps.  A network map entry may hold a Go nil pointer
(`none`), which is what `addNetwork` stores when translation fails. -/
structure CacheState where
  networks : List (String × Option Network)
  usingIPs : List (String × String)
  lastReservedIPs : List (String × LastReservedIP)
  deriving DecidableEq

/-- Source `cache.addNetwork`: translate and store the result; on a
translation failure the error is only logged and the nil result is stored. -/
def CacheState.addNetwork (c : CacheState) (network : CrdNetwork) : CacheState :=
  let net : Option Network :=
    match GetNetworkFromCRD network with
    | Except.error _ => none
    | Except.ok x => some x
  { c with networks := mapInsert c.networks network.metadata.name net }

/-- Source `cache.updateNetwork`: a record carrying a deletion marker is
deleted (and the handler returns); otherwise translate and store as in
`addNetwork`. -/
def CacheState.updateNetwork (c : CacheState) (network : CrdNetwork) : CacheState :=
  if network.metadata.deletionTimestamp.isSome then
    { c with networks := mapErase c.networks network.metadata.name }
  else
    let net : Option Network :=
      match GetNetworkFromCRD network with
      | Except.error _ => none
      | Except.ok x => some x
    { c with networks := mapInsert c.networks network.metadata.name net }

/-- Source `cache.deleteNetwork`. -/
def CacheState.deleteNetwork (c : CacheState) (network : CrdNetwork) : CacheState :=
  { c with networks := mapErase c.networks network.metadata.name }

/-- Source `cache.addUsingIP`. -/
def CacheState.addUsingIP (c : CacheState) (usingIP : CrdUsingIP) : CacheState :=
  { c with usingIPs := mapInsert c.usingIPs usingIP.metadata.name usingIP.spec.podName }

/-- Source `cache.updateUsingIP`: on a deletion marker the entry is deleted,
and then — the body does not return early — unconditionally re-inserted. -/
def CacheState.updateUsingIP (c : CacheState) (usingIP : CrdUsingIP) : CacheState :=
  let m :=
    if usingIP.metadata.deletionTimestamp.isSome then mapErase c.usingIPs usingIP.metadata.name
    else c.usingIPs
  { c with usingIPs := mapInsert m usingIP.metadata.name usingIP.spec.podName }

/-- Source `cache.deleteUsingIP`. -/
def CacheState.deleteUsingIP (c : CacheState) (usingIP : CrdUsingIP) : CacheState :=
  { c with usingIPs := mapErase c.usingIPs usingIP.metadata.name }

/-- Source `cache.GetNetwork`: the stored pointer when the key is present
(which may be nil), nil otherwise — both observed as `none` here. -/
def CacheState.GetNetwork (c : CacheState) (networkName : String) : Option Network :=
  (mapLookup c.networks networkName).bind (fun v => v)

/-- Source `cache.IsIPUsing`. -/
def CacheState.IsIPUsing (c : CacheState) (ip : String) : Bool :=
  (mapLookup c.usingIPs ip).isSome

/-! ## Backing store (spec section 6 contract) and coordinator operations -/

/-- The backing store's records, as far as the verified operations touch
them. -/
structure KubeState where
  networks : List (String × CrdNetwork)
  usingIPs : List (String × CrdUsingIP)
  deriving DecidableEq

/-- Modelled from the spec: the store's atomic `Create` fails with
`AlreadyExists` when a record with the same key exists. -/
def kubeCreateNetwork (st : KubeState) (n : CrdNetwork) : Except GoErr KubeState :=
  if (mapLookup st.networks n.metadata.name).isSome then Except.error GoErr.alreadyExists
  else Except.ok { st with networks := mapInsert st.networks n.metadata.name n }

/-- Modelled from the spec: the store's `Get` fails with `NotFound` on a
missing key. -/
def kubeGetNetwork (st : KubeState) (name : String) : Except GoErr CrdNetwork :=
  match mapLookup st.networks name with
  | some n => Except.ok n
  | none => Except.error GoErr.notFound

/-- Modelled from the spec: the store's `Delete` removes the key and treats a
missing key as success (spec section 6: Delete on a missing key is not an
error). -/
def kubeDeleteUsingIP (st : KubeState) (key : String) : KubeState × Option GoErr :=
  ({ st with usingIPs := mapErase st.usingIPs key }, none)

/-- Option form of an `IP` rendered as Go renders it (`String` on a nil
pointer prints `<nil>`). -/
def goIPStringOpt (o : Option IP) : String :=
  match o with
  | none => "<nil>"
  | some ip => ipString ip

/-- Go `IPNet.String` for the canonical IPv4 nets this code produces. -/
def ipnetString (sn : IPNet) : String :=
  ipString sn.ip ++ "/" ++ toString (maskSize sn.mask).1

/-- The wire pool Store.AddPool appends: every field rendered to its string
form, as in the source. -/
def poolToCRD (p : Pool) : CrdPool :=
  { name := p.Name
    poolStart := goIPStringOpt p.PoolStart
    poolEnd := goIPStringOpt p.PoolEnd
    gateway := goIPStringOpt p.Gateway
    subnet := match p.Subnet with
              | none => "<nil>"
              | some sn => ipnetString sn
    vlanId := p.VlanID }

/-- The duplicate-name/overlap loop of source `Store.AddPool`: per existing
pool, the name collision is checked before the overlap. -/
def checkPools (pool : Pool) : List Pool → Except GoErr Unit
  | [] => Except.ok ()
  | p :: rest =>
    if pool.Name == p.Name then Except.error (GoErr.strMsg "network already has pool")
    else if pool.Overlaps p then Except.error (GoErr.strMsg "new pool overlaps old pool")
    else checkPools pool rest

/-- Source `Store.AddPool`: check the cached network for duplicates and
overlaps, canonicalize the pool, fetch the current network object from the
backing store (not the cache), append the wire form of the pool, and write
the clone back — with the store's `Create` primitive. -/
def AddPool (c : CacheState) (st : KubeState) (name : String) (pool : Pool) :
    Except GoErr KubeState :=
  match c.GetNetwork name with
  | none => Except.error (GoErr.strMsg "network is not in cache")
  | some networkCache =>
    match checkPools pool networkCache.Pools with
    | Except.error e => Except.error e
    | Except.ok _ =>
      match pool.Canonicalize with
      | (_, some e) => Except.error e
      | (pool2, none) =>
        match kubeGetNetwork st name with
        | Except.error e => Except.error e
        | Except.ok network =>
          let networkClone : CrdNetwork :=
            { network with pools := network.pools ++ [poolToCRD pool2] }
          match kubeCreateNetwork st networkClone with
          | Except.error e => Except.error e
          | Except.ok st2 => Except.ok st2

/-- Source `Store.createUsingIP`: attempt the store create of the in-use
record keyed by `ToKubeName(ip)`; the reply of the external create call is
passed in as `createReply` (`none` = success).  `AlreadyExists` maps to
`(false, nil)`, any other failure to `(false, err)`, success to
`(true, nil)`. -/
def createUsingIP (network pool namespace0 name0 ip : String)
    (createReply : Option GoErr) : Bool × Option GoErr :=
  let record : CrdUsingIP :=
    { metadata := { name := toKubeName ip, deletionTimestamp := none, resourceVersion := "" }
      spec := { podName := name0, podNamespace := namespace0, network := network, pool := pool } }
  match record, createReply with
  | _, some GoErr.alreadyExists => (false, none)
  | _, some e => (false, some e)
  | _, none => (true, none)

/-- What a `Reserve` call returned and whether it reached the backing store's
create primitive at all. -/
structure ReserveOutcome where
  reserved : Bool
  err : Option GoErr
  storeCreateAttempted : Bool
  deriving DecidableEq

/-- Source `Store.Reserve`: cache pre-check on the canonical key, then the
store create; on success a best-effort `updateLastReservedIP` whose reply
(`lriReply`) is discarded (`_ =` in the source). -/
def Reserve (c : CacheState) (network pool namespace0 name0 : String) (ip : IP)
    (createReply : Option GoErr) (lriReply : Option GoErr) : ReserveOutcome :=
  if c.IsIPUsing (toKubeName (ipString ip)) then ⟨false, none, false⟩
  else
    let r := createUsingIP network pool namespace0 name0 (ipString ip) createReply
    ⟨r.1, r.2, true⟩

/-- Source `Store.deleteUsingIP`: delete the in-use record keyed by
`ToKubeName(ip)` from the backing store. -/
def deleteUsingIP (st : KubeState) (ip : String) : KubeState × Option GoErr :=
  kubeDeleteUsingIP st (toKubeName ip)

/-- Source `Store.Release`. -/
def Release (st : KubeState) (ip : IP) : KubeState × Option GoErr :=
  deleteUsingIP st (ipString ip)

/-! ## Shared lemmas -/

theorem mapLookup_mapInsert {α : Type} (m : List (String × α)) (k : String) (v : α) :
    mapLookup (mapInsert m k v) k = some v := by
  simp [mapLookup, mapInsert, List.find?]

theorem mapLookup_mapErase {α : Type} (m : List (String × α)) (k : String) :
    mapLookup (mapErase m k) k = none := by
  have h : (m.filter (fun kv => kv.1 != k)).find? (fun kv => kv.1 == k) = none := by
    rw [List.find?_eq_none]
    intro x hx
    have hmem := List.of_mem_filter hx
    simp only [bne_iff_ne, ne_eq] at hmem
    simp [hmem]
  simp [mapLookup, mapErase, h]

/-- With a non-nil subnet, `Pool.Contains` always returns a value (no panic). -/
theorem contains_eq_some (p : Pool) (sn : IPNet) (addr : IP) (hsub : p.Subnet = some sn) :
    ∃ b, p.Contains addr = some b := by
  unfold Pool.Contains
  rw [hsub]
  by_cases h1 : (toFour addr).isNone = true
  · exact ⟨false, by simp [h1]⟩
  · exact ⟨containsWith sn p.PoolStart p.PoolEnd addr, by simp [h1]⟩

/-- Characterization of `containsWith` returning `true`. -/
theorem containsWith_true_iff (sn : IPNet) (ps pe : Option IP) (addr : IP) :
    containsWith sn ps pe addr = true ↔
      (ipnetContains sn addr = true ∧
        (∀ s, ps = some s → ¬(ipCmp addr s = Ordering.lt)) ∧
        (∀ e, pe = some e → ¬(ipCmp addr e = Ordering.gt))) := by
  cases ps <;> cases pe <;>
    simp only [containsWith] <;>
    split_ifs with h1 h2 h3 <;>
    simp_all

/-- Characterization of `Pool.Contains` returning `true`, for a non-nil
subnet. -/
theorem contains_some_true_iff (p : Pool) (sn : IPNet) (addr : IP) (hsub : p.Subnet = some sn) :
    p.Contains addr = some true ↔
      ((toFour addr).isNone = false ∧ ipnetContains sn addr = true ∧
        (∀ s, p.PoolStart = some s → ¬(ipCmp addr s = Ordering.lt)) ∧
        (∀ e, p.PoolEnd = some e → ¬(ipCmp addr e = Ordering.gt))) := by
  unfold Pool.Contains
  rw [hsub]
  cases h4 : (toFour addr).isNone
  · simp [h4, containsWith_true_iff]
  · simp [h4]

/-- What `(p.Contains addr).getD false = true` (the form `Validate` consumes)
yields, for a non-nil subnet. -/
theorem contains_getD_facts (p : Pool) (sn : IPNet) (addr : IP) (hsub : p.Subnet = some sn)
    (h : (p.Contains addr).getD false = true) :
    ipnetContains sn addr = true ∧
    (∀ s, p.PoolStart = some s → ¬(ipCmp addr s = Ordering.lt)) ∧
    (∀ e, p.PoolEnd = some e → ¬(ipCmp addr e = Ordering.gt)) := by
  obtain ⟨b, hb⟩ := contains_eq_some p sn addr hsub
  rw [hb] at h
  simp only [Option.getD_some] at h
  subst h
  have := (contains_some_true_iff p sn addr hsub).mp hb
  exact ⟨this.2.1, this.2.2.1, this.2.2.2⟩

/-- Inversion of `Pool.startCheck` succeeding. -/
theorem startCheck_ok (p : Pool) (h : p.startCheck = Except.ok ()) :
    ∀ s, p.PoolStart = some s → (p.Contains s).getD false = true := by
  intro s hs
  simp only [Pool.startCheck, hs] at h
  split at h
  · exact Except.noConfusion h
  · by_cases hc : (p.Contains s).getD false = true
    · exact hc
    · exfalso
      simp only [Bool.not_eq_true] at hc
      simp [hc] at h

/-- Inversion of `Pool.endCheck` succeeding. -/
theorem endCheck_ok (p : Pool) (h : p.endCheck = Except.ok ()) :
    ∀ e2, p.PoolEnd = some e2 → (p.Contains e2).getD false = true := by
  intro e2 he
  simp only [Pool.endCheck, he] at h
  split at h
  · exact Except.noConfusion h
  · by_cases hc : (p.Contains e2).getD false = true
    · exact hc
    · exfalso
      simp only [Bool.not_eq_true] at hc
      simp [hc] at h

/-- Everything a successful `Pool.Validate` guarantees about the pool. -/
theorem validate_ok_facts (p : Pool) (h : p.Validate = Except.ok ()) :
    p.Name.length ≠ 0 ∧
    (∀ v, p.VlanID = some v → 0 < v ∧ ¬(1005 < v ∧ v < 1025) ∧ v ≤ 4094) ∧
    p.Gateway.isSome = true ∧
    p.Subnet.isSome = true ∧
    (∀ sn, p.Subnet = some sn →
      ((maskSize sn.mask).1 : Int) ≤ ((maskSize sn.mask).2 : Int) - 2 ∧
      ipEqual sn.ip ((goIPMask sn.ip sn.mask).getD []) = true ∧
      (∀ gw, p.Gateway = some gw → ipnetContains sn gw = true) ∧
      (∀ s, p.PoolStart = some s → ipnetContains sn s = true) ∧
      (∀ e2, p.PoolEnd = some e2 → ipnetContains sn e2 = true) ∧
      (∀ s e2, p.PoolStart = some s → p.PoolEnd = some e2 → ipToNat s ≤ ipToNat e2)) := by
  unfold Pool.Validate at h
  split at h
  · exact Except.noConfusion h
  next hname =>
    split at h
    · exact Except.noConfusion h
    next hvlan =>
      split at h
      · exact Except.noConfusion h
      next gw hgw =>
        split at h
        · exact Except.noConfusion h
        next sn0 hsn0 =>
          split at h
          · exact Except.noConfusion h
          next hcanon =>
            split at h
            · exact Except.noConfusion h
            next hsize =>
              split at h
              · exact Except.noConfusion h
              next hlen =>
                split at h
                · exact Except.noConfusion h
                next hhost =>
                  split at h
                  · exact Except.noConfusion h
                  next hgwin =>
                    split at h
                    · exact Except.noConfusion h
                    next hstart =>
                      refine ⟨by simpa using hname, ?_, by simp [hgw], by simp [hsn0], ?_⟩
                      · intro v hv
                        rw [hv] at hvlan
                        simp only [decide_eq_true_eq, Bool.or_eq_true, Bool.and_eq_true,
                          not_or] at hvlan
                        omega
                      · intro sn hsn
                        rw [hsn0] at hsn
                        injection hsn with hsn
                        subst hsn
                        have hstartD := startCheck_ok p hstart
                        have hendD := endCheck_ok p h
                        refine ⟨by omega, by simpa using hhost, ?_, ?_, ?_, ?_⟩
                        · intro gw2 hgw2
                          rw [hgw] at hgw2
                          injection hgw2 with hgw2
                          subst hgw2
                          simpa using hgwin
                        · intro s hs
                          exact (contains_getD_facts p sn0 s hsn0 (hstartD s hs)).1
                        · intro e2 he2
                          exact (contains_getD_facts p sn0 e2 hsn0 (hendD e2 he2)).1
                        · intro s e2 hs he2
                          have hfacts := contains_getD_facts p sn0 s hsn0 (hstartD s hs)
                          have hcmp := hfacts.2.2 e2 he2
                          unfold ipCmp at hcmp
                          have := Nat.compare_eq_gt.not.mp hcmp
                          omega

/-- A pool whose `Validate` cannot succeed is rejected. -/
theorem validate_not_ok_of (p : Pool) (hcontra : p.Validate = Except.ok () → False) :
    exceptIsOk p.Validate = false := by
  cases hv : p.Validate with
  | ok u => cases u; exact absurd hv hcontra
  | error e => rfl

/-- `poolIndexOf` finds nothing when no pool carries the name. -/
theorem poolIndexOf_eq_none (name : String) (L : List Pool)
    (h : ∀ p ∈ L, p.Name ≠ name) : poolIndexOf name L = none := by
  induction L with
  | nil => rfl
  | cons p rest ih =>
    have hp : (p.Name == name) = false := by
      simp [h p (List.mem_cons_self p rest)]
    simp [poolIndexOf, hp, ih (fun q hq => h q (List.mem_cons_of_mem p hq))]

/-! ## Claim theorems -/

/-- C6: for every pool with a non-nil subnet and every address, `Contains`
returns true iff the address is representable in 4-byte IPv4 form, lies
within the subnet, is not before `PoolStart` when that is set, and not after
`PoolEnd` when that is set. -/
theorem claim_contains_iff (p : Pool) (sn : IPNet) (addr : IP) (hsub : p.Subnet = some sn) :
    p.Contains addr = some true ↔
      ((toFour addr).isNone = false ∧ ipnetContains sn addr = true ∧
        (∀ s, p.PoolStart = some s → ¬(ipCmp addr s = Ordering.lt)) ∧
        (∀ e, p.PoolEnd = some e → ¬(ipCmp addr e = Ordering.gt))) :=
  contains_some_true_iff p sn addr hsub

/-- Concrete instance of the C6 theorem: an address inside the configured
range of an example pool is contained. -/
def c6Pool : Pool :=
  ⟨"p1", some [10, 0, 0, 5], some [10, 0, 0, 9], some [10, 0, 0, 1],
    some ⟨[10, 0, 0, 0], [255, 255, 255, 0]⟩, none⟩

theorem claim_contains_iff_witness : c6Pool.Contains [10, 0, 0, 7] = some true :=
  (claim_contains_iff c6Pool ⟨[10, 0, 0, 0], [255, 255, 255, 0]⟩ [10, 0, 0, 7] rfl).mpr
    ⟨by decide, by decide,
      fun s hs => by
        simp only [c6Pool, Option.some.injEq] at hs
        subst hs
        decide,
      fun e he => by
        simp only [c6Pool, Option.some.injEq] at he
        subst he
        decide⟩

/-- C7: for a pool with both bounds unset, a successful `Canonicalize`
defaults `PoolStart` to the successor of the subnet address and `PoolEnd` to
`lastIP` of the subnet; a failing `Validate` makes `Canonicalize` return
that same error with the pool unchanged. -/
theorem claim_canonicalize_defaults (p : Pool) (sn : IPNet) (hs : p.PoolStart = none)
    (he : p.PoolEnd = none) (hsub : p.Subnet = some sn) :
    (p.Validate = Except.ok () →
        p.Canonicalize =
          ({ p with PoolStart := some (nextIP sn.ip), PoolEnd := some (lastIP sn) }, none)) ∧
    (∀ e, p.Validate = Except.error e → p.Canonicalize = (p, some e)) := by
  constructor
  · intro hv
    simp only [Pool.Canonicalize, hv, hs, he, hsub]
  · intro e hv
    simp only [Pool.Canonicalize, hv]

/-- Concrete instance of the C7 theorem: the spec's end-to-end example pool
gets `poolStart = 192.168.0.1` and `poolEnd = 192.168.0.254`. -/
def c7Pool : Pool :=
  ⟨"p1", none, none, some [192, 168, 0, 254],
    some ⟨[192, 168, 0, 0], [255, 255, 255, 0]⟩, none⟩

theorem claim_canonicalize_defaults_witness :
    c7Pool.Canonicalize =
      ({ c7Pool with
          PoolStart := some (nextIP [192, 168, 0, 0])
          PoolEnd := some (lastIP ⟨[192, 168, 0, 0], [255, 255, 255, 0]⟩) }, none) :=
  (claim_canonicalize_defaults c7Pool ⟨[192, 168, 0, 0], [255, 255, 255, 0]⟩
      rfl rfl rfl).1 (by decide)

/-- C8: the three `lastIP` values named by the spec, over 4-byte IPv4
subnets. -/
theorem claim_lastIP_values :
    lastIP ⟨[192, 168, 0, 0], [255, 255, 255, 0]⟩ = [192, 168, 0, 254] ∧
    lastIP ⟨[172, 16, 0, 0], [255, 255, 252, 0]⟩ = [172, 16, 3, 254] ∧
    lastIP ⟨[192, 168, 0, 0], [255, 255, 255, 192]⟩ = [192, 168, 0, 62] := by
  decide

/-- C9: `Validate` rejects (returns an error for) every pool with an empty
name, an out-of-range VLAN, a missing gateway or subnet, a too-small subnet,
host bits set in the subnet address, a gateway outside the subnet, a set
`PoolStart`/`PoolEnd` outside the subnet, or a set `PoolStart` strictly
greater than a set `PoolEnd` (compared as IPv4 addresses, the source's
`ip.Cmp` ordering). -/
theorem claim_validate_rejections (p : Pool) :
    (p.Name.length = 0 → exceptIsOk p.Validate = false) ∧
    (∀ v, p.VlanID = some v → (v ≤ 0 ∨ (1005 < v ∧ v < 1025) ∨ 4094 < v) →
        exceptIsOk p.Validate = false) ∧
    (p.Gateway = none → exceptIsOk p.Validate = false) ∧
    (p.Subnet = none → exceptIsOk p.Validate = false) ∧
    (∀ sn, p.Subnet = some sn →
        ((maskSize sn.mask).2 : Int) - 2 < ((maskSize sn.mask).1 : Int) →
        exceptIsOk p.Validate = false) ∧
    (∀ sn, p.Subnet = some sn →
        ipEqual sn.ip ((goIPMask sn.ip sn.mask).getD []) = false →
        exceptIsOk p.Validate = false) ∧
    (∀ sn gw, p.Subnet = some sn → p.Gateway = some gw → ipnetContains sn gw = false →
        exceptIsOk p.Validate = false) ∧
    (∀ sn s, p.Subnet = some sn → p.PoolStart = some s → ipnetContains sn s = false →
        exceptIsOk p.Validate = false) ∧
    (∀ sn e2, p.Subnet = some sn → p.PoolEnd = some e2 → ipnetContains sn e2 = false →
        exceptIsOk p.Validate = false) ∧
    (∀ s e2, p.PoolStart = some s → p.PoolEnd = some e2 → ipToNat e2 < ipToNat s →
        exceptIsOk p.Validate = false) := by
  refine ⟨?_, ?_, ?_, ?_, ?_, ?_, ?_, ?_, ?_, ?_⟩
  · intro hc
    refine validate_not_ok_of p (fun hok => ?_)
    exact (validate_ok_facts p hok).1 hc
  · intro v hv hc
    refine validate_not_ok_of p (fun hok => ?_)
    have := (validate_ok_facts p hok).2.1 v hv
    omega
  · intro hc
    refine validate_not_ok_of p (fun hok => ?_)
    have := (validate_ok_facts p hok).2.2.1
    rw [hc] at this
    exact Bool.noConfusion this
  · intro hc
    refine validate_not_ok_of p (fun hok => ?_)
    have := (validate_ok_facts p hok).2.2.2.1
    rw [hc] at this
    exact Bool.noConfusion this
  · intro sn hsn hc
    refine validate_not_ok_of p (fun hok => ?_)
    have := ((validate_ok_facts p hok).2.2.2.2 sn hsn).1
    omega
  · intro sn hsn hc
    refine validate_not_ok_of p (fun hok => ?_)
    have := ((validate_ok_facts p hok).2.2.2.2 sn hsn).2.1
    rw [hc] at this
    exact Bool.noConfusion this
  · intro sn gw hsn hgw hc
    refine validate_not_ok_of p (fun hok => ?_)
    have := ((validate_ok_facts p hok).2.2.2.2 sn hsn).2.2.1 gw hgw
    rw [hc] at this
    exact Bool.noConfusion this
  · intro sn s hsn hs hc
    refine validate_not_ok_of p (fun hok => ?_)
    have := ((validate_ok_facts p hok).2.2.2.2 sn hsn).2.2.2.1 s hs
    rw [hc] at this
    exact Bool.noConfusion this
  · intro sn e2 hsn he2 hc
    refine validate_not_ok_of p (fun hok => ?_)
    have := ((validate_ok_facts p hok).2.2.2.2 sn hsn).2.2.2.2.1 e2 he2
    rw [hc] at this
    exact Bool.noConfusion this
  · intro s e2 hs he2 hc
    refine validate_not_ok_of p (fun hok => ?_)
    cases hsn : p.Subnet with
    | none =>
      have := (validate_ok_facts p hok).2.2.2.1
      rw [hsn] at this
      exact Bool.noConfusion this
    | some sn =>
      have := ((validate_ok_facts p hok).2.2.2.2 sn hsn).2.2.2.2.2 s e2 hs he2
      omega

/-- Concrete instance of the C9 theorem: a pool whose `PoolStart` is above
its `PoolEnd` is rejected. -/
def c9Pool : Pool :=
  ⟨"p1", some [10, 0, 0, 9], some [10, 0, 0, 5], some [10, 0, 0, 1],
    some ⟨[10, 0, 0, 0], [255, 255, 255, 0]⟩, none⟩

theorem claim_validate_rejections_witness : exceptIsOk c9Pool.Validate = false :=
  (claim_validate_rejections c9Pool).2.2.2.2.2.2.2.2.2
    [10, 0, 0, 9] [10, 0, 0, 5] rfl rfl (by decide)

/-- C10: `LastReservedIP.Index` errs when no pool carries the marker's pool
name, errs when the first pool carrying it does not contain the marker's
address, and otherwise returns the index of that first matching pool.  The
embedding is a pure function of the marker and the network, so neither is
mutated. -/
theorem claim_index_spec (l : LastReservedIP) (n : Network) :
    ((∀ p ∈ n.Pools, p.Name ≠ l.PoolName) →
        l.Index n =
          some (Except.error (GoErr.strMsg "last reserved ip's pool is not in network"))) ∧
    (∀ i pool, poolIndexOf l.PoolName n.Pools = some i → n.Pools.get? i = some pool →
        (pool.Contains l.ip = some false →
            l.Index n =
              some (Except.error (GoErr.strMsg "last reserved ip is not in pool"))) ∧
        (pool.Contains l.ip = some true → l.Index n = some (Except.ok i))) := by
  constructor
  · intro h
    simp only [LastReservedIP.Index, poolIndexOf_eq_none l.PoolName n.Pools h]
  · intro i pool hi hp
    constructor
    · intro hc
      simp only [LastReservedIP.Index, hi, hp, hc]
      rfl
    · intro hc
      simp only [LastReservedIP.Index, hi, hp, hc]
      rfl

/-- Concrete instance of the C10 theorem: the marker resolves to index 0 of a
one-pool network containing its address. -/
def c10Marker : LastReservedIP := ⟨[10, 0, 0, 7], "p1"⟩

def c10Network : Network := ⟨"n1", [c6Pool]⟩

theorem claim_index_spec_witness : c10Marker.Index c10Network = some (Except.ok 0) :=
  ((claim_index_spec c10Marker c10Network).2 0 c6Pool rfl rfl).2 (by decide)

/-- C1: `Reserve` rejects from the cache alone — `(false, nil)` without
reaching the store's create — when the canonical key of the address is marked
in use; otherwise it attempts the store create and maps its reply:
`AlreadyExists` to `(false, nil)`, any other failure to `(false, err)`,
success to `(true, nil)` — in every case independently of the reply to the
subsequent best-effort `LastReservedIP` update. -/
theorem claim_reserve_spec (c : CacheState) (network pool namespace0 name0 : String)
    (ip : IP) (createReply lriReply : Option GoErr) :
    (c.IsIPUsing (toKubeName (ipString ip)) = true →
        Reserve c network pool namespace0 name0 ip createReply lriReply =
          ⟨false, none, false⟩) ∧
    (c.IsIPUsing (toKubeName (ipString ip)) = false →
        (Reserve c network pool namespace0 name0 ip createReply lriReply).storeCreateAttempted
            = true ∧
        (createReply = some GoErr.alreadyExists →
            (Reserve c network pool namespace0 name0 ip createReply lriReply).reserved = false ∧
            (Reserve c network pool namespace0 name0 ip createReply lriReply).err = none) ∧
        (∀ e, createReply = some e → e ≠ GoErr.alreadyExists →
            (Reserve c network pool namespace0 name0 ip createReply lriReply).reserved = false ∧
            (Reserve c network pool namespace0 name0 ip createReply lriReply).err = some e) ∧
        (createReply = none →
            (Reserve c network pool namespace0 name0 ip createReply lriReply).reserved = true ∧
            (Reserve c network pool namespace0 name0 ip createReply lriReply).err = none)) ∧
    (∀ otherReply,
        Reserve c network pool namespace0 name0 ip createReply lriReply =
          Reserve c network pool namespace0 name0 ip createReply otherReply) := by
  refine ⟨?_, ?_, ?_⟩
  · intro h
    simp [Reserve, h]
  · intro h
    refine ⟨by simp [Reserve, h], ?_, ?_, ?_⟩
    · intro hr
      subst hr
      simp [Reserve, h, createUsingIP]
    · intro e hr hne
      subst hr
      cases e with
      | alreadyExists => exact absurd rfl hne
      | strMsg msg => simp [Reserve, h, createUsingIP]
      | notFound => simp [Reserve, h, createUsingIP]
      | other msg => simp [Reserve, h, createUsingIP]
    · intro hr
      subst hr
      simp [Reserve, h, createUsingIP]
  · intro otherReply
    rfl

/-- Concrete instance of the C1 theorem: with an empty cache and a successful
store create, `Reserve` reports the address as reserved. -/
theorem claim_reserve_spec_witness :
    (Reserve ⟨[], [], []⟩ "n1" "p1" "ns" "pod1" [10, 0, 0, 1] none none).reserved = true ∧
    (Reserve ⟨[], [], []⟩ "n1" "p1" "ns" "pod1" [10, 0, 0, 1] none none).err = none :=
  ((claim_reserve_spec ⟨[], [], []⟩ "n1" "p1" "ns" "pod1" [10, 0, 0, 1] none none).2.1
      (by decide)).2.2.2 rfl

/-- C2 (code bug): on an in-use-IP update notification whose record carries a
deletion marker, `updateUsingIP` deletes the key but then — the body has no
early return, unlike its `updateNetwork` and `updateLastReservedIP`
siblings — unconditionally re-inserts it, so the cache still maps the key
afterwards; the claim (and the spec) say the update is treated as a delete
and the key is gone. -/
def c2Record : CrdUsingIP :=
  ⟨⟨"10-0-0-1", some 0, "2"⟩, ⟨"pod-a", "ns-a", "n1", "p1"⟩⟩

def c2Cache : CacheState := ⟨[], [("10-0-0-1", "pod-a")], []⟩

theorem claim_updateUsingIP_deletion_marker_entry_remains :
    c2Record.metadata.deletionTimestamp.isSome = true ∧
    mapLookup (c2Cache.updateUsingIP c2Record).usingIPs "10-0-0-1" = some "pod-a" ∧
    (c2Cache.updateUsingIP c2Record).IsIPUsing "10-0-0-1" = true := by
  decide

/-- C3 (code bug): with the network present in the cache and in the backing
store and a pool that passes the duplicate-name check, the overlap check and
`Canonicalize`, `AddPool` fetches the fresh store object but then writes the
appended clone back with the store's `Create` primitive, which fails with
`AlreadyExists` because the network object already exists — so `AddPool`
returns an error instead of succeeding. -/
def c3Cache : CacheState := ⟨[("n1", some ⟨"n1", []⟩)], [], []⟩

def c3Kube : KubeState := ⟨[("n1", ⟨⟨"n1", none, "1"⟩, []⟩)], []⟩

def c3Pool : Pool :=
  ⟨"p1", none, none, some [192, 168, 0, 1],
    some ⟨[192, 168, 0, 0], [255, 255, 255, 0]⟩, none⟩

theorem claim_addPool_create_conflicts :
    c3Cache.GetNetwork "n1" = some ⟨"n1", []⟩ ∧
    (mapLookup c3Kube.networks "n1").isSome = true ∧
    checkPools c3Pool [] = Except.ok () ∧
    c3Pool.Canonicalize.2 = none ∧
    AddPool c3Cache c3Kube "n1" c3Pool = Except.error GoErr.alreadyExists := by
  decide

/-- C4: a network add or update notification whose record fails translation
leaves no usable cache entry under the record's name — the cache maps the
name to a Go nil pointer, which `GetNetwork` reports as absent. -/
theorem claim_cache_drops_untranslatable_network (c : CacheState) (n : CrdNetwork)
    (e : GoErr) (h : GetNetworkFromCRD n = Except.error e) :
    (c.addNetwork n).GetNetwork n.metadata.name = none ∧
    (c.updateNetwork n).GetNetwork n.metadata.name = none := by
  constructor
  · simp [CacheState.addNetwork, h, CacheState.GetNetwork, mapLookup_mapInsert]
  · unfold CacheState.updateNetwork
    cases hd : n.metadata.deletionTimestamp.isSome
    · simp [hd, h, CacheState.GetNetwork, mapLookup_mapInsert]
    · simp [hd, CacheState.GetNetwork, mapLookup_mapErase]

/-- Concrete instance of the C4 theorem: a wire network with an unparsable
subnet is dropped on add and on update. -/
def c4Record : CrdNetwork :=
  ⟨⟨"nx", none, "1"⟩, [⟨"p", "", "", "", "not-a-cidr", none⟩]⟩

def c4Cache : CacheState := ⟨[], [], []⟩

theorem claim_cache_drops_untranslatable_network_witness :
    (c4Cache.addNetwork c4Record).GetNetwork "nx" = none ∧
    (c4Cache.updateNetwork c4Record).GetNetwork "nx" = none :=
  claim_cache_drops_untranslatable_network c4Cache c4Record
    (GoErr.strMsg "invalid pool subnet") (by decide)

/-- C5: `Release` deletes the in-use record keyed by the canonical form of
the address and returns success — for every store state, including states
with no record under that key (the store's `Delete` treats a missing key as
success). -/
theorem claim_release_idempotent (st : KubeState) (ip : IP) :
    (Release st ip).2 = none ∧
    mapLookup (Release st ip).1.usingIPs (toKubeName (ipString ip)) = none ∧
    (Release st ip).1.usingIPs = mapErase st.usingIPs (toKubeName (ipString ip)) := by
  refine ⟨rfl, ?_, rfl⟩
  simp [Release, deleteUsingIP, kubeDeleteUsingIP, mapLookup_mapErase]

end KubeIpam
